import Mathlib

/-!
Verification development for the `app-licenses` client: a license-gating and
cascading-configuration mechanism (`app_hub.py` with class `AppHub`, and the
older variant `license.py` with class `LicenseManager`).

The embedding is shallow: JSON documents become association lists of
string-keyed `JVal` values, the mutable cache fields of `AppHub` become an
explicit record threaded through each operation, the remote document store
becomes a function `Fetch : String → Option Doc` (the argument is the fetched
file name), and each operation additionally returns the list of file names it
fetched, so that fetch counts (caching behaviour) are provable.  Unhandled
Python exceptions are modelled by the explicit outcome `Outcome.error`.
-/

/-- A JSON value, as produced by `json.loads`.  `null` doubles as the Python
`None` object.  JSON numbers are modelled as integers (the repository's
documents use integers and strings only). -/
inductive JVal where
  | null : JVal
  | bool : Bool → JVal
  | num : Int → JVal
  | str : String → JVal
  | arr : List JVal → JVal
  | obj : List (String × JVal) → JVal
deriving Repr

/-- A JSON object (Python dict) with insertion order, as an association list. -/
abbrev Doc := List (String × JVal)

/-- The document store: file name ↦ parsed document, `none` on any fetch or
parse failure (models `AppHub._fetch_json` / `LicenseManager._fetch_licenses`). -/
abbrev Fetch := String → Option Doc

mutual

/-- Structural equality of JSON values (Python `==` on parsed JSON). -/
def JVal.beq : JVal → JVal → Bool
  | .null, .null => true
  | .bool a, .bool b => a == b
  | .num a, .num b => a == b
  | .str a, .str b => a == b
  | .arr a, .arr b => JVal.beqList a b
  | .obj a, .obj b => JVal.beqFields a b
  | _, _ => false

def JVal.beqList : List JVal → List JVal → Bool
  | [], [] => true
  | a :: as0, b :: bs0 => JVal.beq a b && JVal.beqList as0 bs0
  | _, _ => false

def JVal.beqFields : List (String × JVal) → List (String × JVal) → Bool
  | [], [] => true
  | (ka, va) :: as0, (kb, vb) :: bs0 =>
      ka == kb && JVal.beq va vb && JVal.beqFields as0 bs0
  | _, _ => false

end

mutual

theorem JVal.beq_iff : ∀ a b : JVal, JVal.beq a b = true ↔ a = b
  | .null, .null => by simp [JVal.beq]
  | .bool a, .bool b => by simp [JVal.beq]
  | .num a, .num b => by simp [JVal.beq]
  | .str a, .str b => by simp [JVal.beq]
  | .arr a, .arr b => by
      simp only [JVal.beq, JVal.arr.injEq]
      exact JVal.beqList_iff a b
  | .obj a, .obj b => by
      simp only [JVal.beq, JVal.obj.injEq]
      exact JVal.beqFields_iff a b
  | .null, .bool _ | .null, .num _ | .null, .str _ | .null, .arr _ | .null, .obj _
  | .bool _, .null | .bool _, .num _ | .bool _, .str _ | .bool _, .arr _ | .bool _, .obj _
  | .num _, .null | .num _, .bool _ | .num _, .str _ | .num _, .arr _ | .num _, .obj _
  | .str _, .null | .str _, .bool _ | .str _, .num _ | .str _, .arr _ | .str _, .obj _
  | .arr _, .null | .arr _, .bool _ | .arr _, .num _ | .arr _, .str _ | .arr _, .obj _
  | .obj _, .null | .obj _, .bool _ | .obj _, .num _ | .obj _, .str _ | .obj _, .arr _ => by
      simp [JVal.beq]

theorem JVal.beqList_iff : ∀ a b : List JVal, JVal.beqList a b = true ↔ a = b
  | [], [] => by simp [JVal.beqList]
  | [], _ :: _ => by simp [JVal.beqList]
  | _ :: _, [] => by simp [JVal.beqList]
  | a :: as0, b :: bs0 => by
      simp only [JVal.beqList, Bool.and_eq_true, List.cons.injEq]
      exact and_congr (JVal.beq_iff a b) (JVal.beqList_iff as0 bs0)

theorem JVal.beqFields_iff :
    ∀ a b : List (String × JVal), JVal.beqFields a b = true ↔ a = b
  | [], [] => by simp [JVal.beqFields]
  | [], _ :: _ => by simp [JVal.beqFields]
  | _ :: _, [] => by simp [JVal.beqFields]
  | (ka, va) :: as0, (kb, vb) :: bs0 => by
      simp only [JVal.beqFields, Bool.and_eq_true, List.cons.injEq, Prod.mk.injEq,
        beq_iff_eq]
      rw [JVal.beq_iff va vb, JVal.beqFields_iff as0 bs0, and_assoc]

end

instance : DecidableEq JVal := fun a b =>
  decidable_of_iff (JVal.beq a b = true) (JVal.beq_iff a b)

/-- Key lookup in a document, in insertion order (Python `d[k]` / `d.get(k)`
and the membership test `k in d`: present iff the result is `some _`). -/
def lookup? : Doc → String → Option JVal
  | [], _ => none
  | (k, v) :: rest, key => if k = key then some v else lookup? rest key

/-- Python `d.get(k, dflt)`: the stored value (even `null`) when the key is
present, the default otherwise. -/
def getD (d : Doc) (k : String) (dflt : JVal) : JVal :=
  match lookup? d k with
  | some v => v
  | none => dflt

/-- Python truthiness of a JSON value (`if x:`). -/
def JVal.truthy : JVal → Bool
  | .null => false
  | .bool b => b
  | .num n => n != 0
  | .str s => s ≠ ""
  | .arr xs => !xs.isEmpty
  | .obj fs => !fs.isEmpty

/-- Truthiness of a `dict.get` result (`none` is Python `None`, falsy). -/
def truthyO : Option JVal → Bool
  | none => false
  | some v => v.truthy

/-- Python `x is True`: the value is exactly the boolean `True`. -/
def isTrueLit : Option JVal → Bool
  | some (.bool true) => true
  | _ => false

/-- ASCII whitespace, as stripped by Python `int(...)`. -/
def isSpaceChar (c : Char) : Bool :=
  c = ' ' ∨ c = '\t' ∨ c = '\n' ∨ c = '\r'

/-- Strip leading and trailing whitespace from a character list. -/
def trimChars (cs : List Char) : List Char :=
  ((cs.dropWhile isSpaceChar).reverse.dropWhile isSpaceChar).reverse

/-- The value of a non-empty all-digit character list, `none` otherwise. -/
def digitsVal? (cs : List Char) : Option Nat :=
  if cs.isEmpty then none
  else cs.foldl
    (fun acc? c => acc?.bind fun acc =>
      if c.isDigit then some (acc * 10 + (c.toNat - 48)) else none)
    (some 0)

/-- Python `int(s)` on a string: surrounding whitespace stripped, optional
sign, then decimal digits (digit-group underscores are not modelled; no
claim involves them). -/
def parseInt? (s : String) : Option Int :=
  match trimChars s.data with
  | '-' :: rest => (digitsVal? rest).map (fun n => -(n : Int))
  | '+' :: rest => (digitsVal? rest).map (fun n => (n : Int))
  | t => (digitsVal? t).map (fun n => (n : Int))

/-- Result of Python `int(x)` on a JSON value: `ValueError` for an
unparseable string (caught by the version gate), `TypeError` for a
non-numeric, non-string value (uncaught — an unhandled exception). -/
inductive PyIntR where
  | ok : Int → PyIntR
  | valueError : PyIntR
  | typeError : PyIntR
deriving DecidableEq, Repr

def pyInt? : JVal → PyIntR
  | .num n => .ok n
  | .bool b => .ok (if b then 1 else 0)
  | .str s =>
      match parseInt? s with
      | some n => .ok n
      | none => .valueError
  | _ => .typeError

/-- A calendar date (what `datetime.strptime(s, "%Y-%m-%d")` produces). -/
structure Date where
  year : Nat
  month : Nat
  day : Nat
deriving DecidableEq, Repr

def isLeap (y : Nat) : Bool :=
  y % 4 == 0 && (y % 100 != 0 || y % 400 == 0)

def daysInMonth (y m : Nat) : Nat :=
  if m = 2 then (if isLeap y then 29 else 28)
  else if m = 4 ∨ m = 6 ∨ m = 9 ∨ m = 11 then 30
  else 31

/-- Split a character list on dashes (the behaviour of
`s.split("-")`-style field separation used by `%Y-%m-%d`). -/
def splitDashes : List Char → List (List Char)
  | [] => [[]]
  | c :: rest =>
    let r := splitDashes rest
    if c = '-' then [] :: r
    else
      match r with
      | g :: gs => (c :: g) :: gs
      | [] => [[c]]

/-- `datetime.strptime(s, "%Y-%m-%d")`: exactly three dash-separated fields,
a four-digit year, a one- or two-digit month in 1..12, a one- or two-digit
day valid for that month (leap years included); anything else raises
`ValueError` (`none`). -/
def parseDate (s : String) : Option Date :=
  match splitDashes s.data with
  | [ys, ms, ds] =>
    match digitsVal? ys, digitsVal? ms, digitsVal? ds with
    | some y, some m, some d =>
      if ys.length = 4 ∧ (ms.length = 1 ∨ ms.length = 2) ∧
          (ds.length = 1 ∨ ds.length = 2) ∧
          1 ≤ m ∧ m ≤ 12 ∧ 1 ≤ d ∧ d ≤ daysInMonth y m then
        some { year := y, month := m, day := d }
      else none
    | _, _, _ => none
  | _ => none

/-- Strict lexicographic order on dates (Python `datetime` comparison,
restricted to midnight values). -/
def Date.before (a b : Date) : Bool :=
  a.year < b.year ∨ (a.year = b.year ∧
    (a.month < b.month ∨ (a.month = b.month ∧ a.day < b.day)))

/-- A `datetime` instant: a date plus the time elapsed since its midnight
(any fixed sub-day unit; only zero versus non-zero matters for the claims).
`datetime.strptime` of a date-only string yields `frac = 0`. -/
structure DateTime where
  date : Date
  frac : Nat
deriving DecidableEq, Repr

/-- Strict order on instants (Python `datetime` `<`). -/
def DateTime.before (a b : DateTime) : Bool :=
  Date.before a.date b.date ∨ (a.date = b.date ∧ a.frac < b.frac)

/-- The mutable state of an `AppHub` instance: constructor arguments, the
derived machine identity, and the cache fields (`_licenses`,
`_global_config`, `_server_config`, `_user_name`, `_user_data`,
`_server_name`). -/
structure AppHub where
  app_name : String
  current_version : String
  hwid : String
  licenses : Option Doc
  global_config : Option Doc
  server_config : Option Doc
  user_name : Option String
  user_data : Option Doc
  server_name : Option String
deriving DecidableEq, Repr

/-- `AppHub.__init__`: every cache field starts empty (`None`).  The machine
identity is an injected parameter (`_generate_hwid` is an external
collaborator). -/
def AppHub.init (app_name current_version hwid : String) : AppHub :=
  { app_name := app_name, current_version := current_version, hwid := hwid,
    licenses := none, global_config := none, server_config := none,
    user_name := none, user_data := none, server_name := none }

/-- Distinguishable denial reasons: one per distinct failure message printed
by the source (`documentUnavailable` = fetch/parse failure,
`malformedDocument` = `users`/`apps` key missing, `dateUnavailable` =
`license.py` could not obtain a remote current date). -/
inductive DenyReason where
  | documentUnavailable : DenyReason
  | malformedDocument : DenyReason
  | malformedVersion : DenyReason
  | versionTooOld : DenyReason
  | identityNotFound : DenyReason
  | applicationUnknown : DenyReason
  | userNotEntitled : DenyReason
  | licenseInactive : DenyReason
  | malformedExpiry : DenyReason
  | licenseExpired : DenyReason
  | dateUnavailable : DenyReason
deriving DecidableEq, Repr

/-- Result of a license check: `granted level` (the function returns the
record's `level` value), `denied r` (the function returns `None` after
printing the reason `r`), or `error` (an unhandled Python exception escapes
the function — only possible on data outside the documented schema). -/
inductive Outcome where
  | granted : JVal → Outcome
  | denied : DenyReason → Outcome
  | error : Outcome
deriving DecidableEq, Repr

/-- Result of `AppHub._load_licenses`, lines 119-134: `ok` (document cached),
`fetchFailed` (`_fetch_json` returned `None`), `badStructure` (`users` or
`apps` key missing — the slot is reset to `None`, exactly like a fetch
failure). -/
inductive LoadLicR where
  | ok : LoadLicR
  | fetchFailed : LoadLicR
  | badStructure : LoadLicR
deriving DecidableEq, Repr

/-- `AppHub._load_licenses` (lines 119-134).  Returns the result, the new
state and the list of file names fetched during the call. -/
def AppHub.load_licenses (f : Fetch) (s : AppHub) : LoadLicR × AppHub × List String :=
  match s.licenses with
  | some _ => (.ok, s, [])
  | none =>
    match f "licenses.json" with
    | none => (.fetchFailed, s, ["licenses.json"])
    | some d =>
      if (lookup? d "users").isNone || (lookup? d "apps").isNone then
        (.badStructure, { s with licenses := none }, ["licenses.json"])
      else
        (.ok, { s with licenses := some d }, ["licenses.json"])

/-- `AppHub._load_global_config` (lines 136-142). -/
def AppHub.load_global_config (f : Fetch) (s : AppHub) : Bool × AppHub × List String :=
  match s.global_config with
  | some _ => (true, s, [])
  | none =>
    match f "global.json" with
    | none => (false, s, ["global.json"])
    | some d => (true, { s with global_config := some d }, ["global.json"])

/-- `AppHub._load_server_config` (lines 144-151): cache hit only when the
slot is populated AND the cached name equals the requested one; otherwise
`{server_name}.json` is fetched and both fields overwritten — a failed fetch
leaves the slot `None` (not cached), and `_server_name` is updated in every
fetch case. -/
def AppHub.load_server_config (f : Fetch) (name : String) (s : AppHub) :
    Bool × AppHub × List String :=
  if s.server_config.isSome ∧ s.server_name = some name then (true, s, [])
  else
    match f (name ++ ".json") with
    | none =>
        (false, { s with server_config := none, server_name := some name },
         [name ++ ".json"])
    | some d =>
        (true, { s with server_config := some d, server_name := some name },
         [name ++ ".json"])

/-- The scan of `users` inside `AppHub._find_user` (lines 160-172): entries
in document order; a legacy entry is a raw string compared directly, a new
entry is a mapping whose `hwid` field is compared (a missing or non-string
`hwid` never equals the probe string); any other shape is skipped
(`continue`). -/
def findUserIn (hwid : String) : List (String × JVal) → Option String
  | [] => none
  | (name, info) :: rest =>
    match info with
    | .str h => if h = hwid then some name else findUserIn hwid rest
    | .obj r =>
        match lookup? r "hwid" with
        | some (.str h) => if h = hwid then some name else findUserIn hwid rest
        | _ => findUserIn hwid rest
    | _ => findUserIn hwid rest

/-- Result of `AppHub._find_user`: `err` models the `AttributeError` Python
raises when `users` is not a mapping. -/
inductive FindR where
  | found : String → FindR
  | notFound : FindR
  | err : FindR
deriving DecidableEq, Repr

/-- `AppHub._find_user` (lines 153-172): loads the licenses document (a
failed load returns `None`, i.e. not found), then scans `users`. -/
def AppHub.find_user (f : Fetch) (s : AppHub) : FindR × AppHub × List String :=
  match AppHub.load_licenses f s with
  | (.ok, s1, lg) =>
    match s1.licenses with
    | some lic =>
      match lookup? lic "users" with
      | some (.obj users) =>
          (match findUserIn s1.hwid users with
           | some n => .found n
           | none => .notFound, s1, lg)
      | some _ => (.err, s1, lg)
      | none => (.err, s1, lg)
    | none => (.err, s1, lg)
  | (_, s1, lg) => (.notFound, s1, lg)

/-- Result of the version gate (lines 208-219). -/
inductive GateR where
  | pass : GateR
  | oldVersion : GateR
  | badVersion : GateR
  | err : GateR
deriving DecidableEq, Repr

/-- The version gate of `AppHub.check_license` (lines 208-219):
`licenses.get('min_version')` — absent, or stored as JSON `null` (Python
`None`), skips the gate; otherwise `int(current_version)` then
`int(min_version)` are parsed (a `ValueError` from either is caught:
`badVersion`; `int` of a non-numeric non-string raises `TypeError`, which is
NOT caught: `err`), and `current < minimum` denies. -/
def versionGate (lic : Doc) (cur : String) : GateR :=
  match lookup? lic "min_version" with
  | none => .pass
  | some .null => .pass
  | some mv =>
    match parseInt? cur with
    | none => .badVersion
    | some c =>
      match pyInt? mv with
      | .ok m => if c < m then .oldVersion else .pass
      | .valueError => .badVersion
      | .typeError => .err

/-- Lines 230-270 of `AppHub.check_license`: the application / entitlement /
record inspection, entered with the user already resolved (the state `s`
already has `_user_name` set).  `_user_data` is assigned as soon as the
record is found (line 242), before `active` is inspected.  The `error`
branches mark the places where Python would raise on data outside the
documented schema (`apps`, an app's user map, or a license record not being
a mapping). -/
def AppHub.checkApp (now : DateTime) (lic : Doc) (uname : String) (s : AppHub) :
    Outcome × AppHub :=
  match lookup? lic "apps" with
  | some (.obj apps) =>
    match lookup? apps s.app_name with
    | none => (.denied .applicationUnknown, s)
    | some (.obj au) =>
      match lookup? au uname with
      | none => (.denied .userNotEntitled, s)
      | some (.obj r) =>
        let s2 : AppHub := { s with user_data := some r }
        if isTrueLit (lookup? r "active") then
          (.granted (getD r "level" (.str "TRY")), s2)
        else
          let ev := lookup? r "expires"
          if truthyO ev = false then (.denied .licenseInactive, s2)
          else
            match ev with
            | some (.str es) =>
              match parseDate es with
              | none => (.denied .malformedExpiry, s2)
              | some ed =>
                if DateTime.before { date := ed, frac := 0 } now then
                  (.denied .licenseExpired, s2)
                else
                  (.granted (getD r "level" (.str "TRY")), s2)
            | _ => (.error, s2)
      | some _ => (.error, s)
    | some _ => (.error, s)
  | some _ => (.error, s)
  | none => (.error, s)

/-- `AppHub.check_license` (lines 196-270): load the licenses document, run
the version gate, resolve the user by machine identity (`_user_name` is set
as soon as the identity resolves, before any app or record check), then
inspect the license record.  `now` is the value of `datetime.now()` — a full
instant, compared against midnight of the `expires` date. -/
def AppHub.check_license (f : Fetch) (now : DateTime) (s : AppHub) :
    Outcome × AppHub × List String :=
  match AppHub.load_licenses f s with
  | (.fetchFailed, s1, lg) => (.denied .documentUnavailable, s1, lg)
  | (.badStructure, s1, lg) => (.denied .malformedDocument, s1, lg)
  | (.ok, s1, lg) =>
    match s1.licenses with
    | none => (.error, s1, lg)
    | some lic =>
      match versionGate lic s1.current_version with
      | .badVersion => (.denied .malformedVersion, s1, lg)
      | .oldVersion => (.denied .versionTooOld, s1, lg)
      | .err => (.error, s1, lg)
      | .pass =>
        match AppHub.find_user f s1 with
        | (.err, s2, lg2) => (.error, s2, lg ++ lg2)
        | (.notFound, s2, lg2) => (.denied .identityNotFound, s2, lg ++ lg2)
        | (.found uname, s2, lg2) =>
          let s3 : AppHub := { s2 with user_name := some uname }
          let os4 := AppHub.checkApp now lic uname s3
          (os4.1, os4.2, lg ++ lg2)

/-- `AppHub.get_server` (lines 272-294): an error signal (`None`, "call
check_license first") when no identity has been resolved; otherwise the
user's entry is read back from the cached licenses document — a mapping-form
entry with a truthy `server` field yields that server name, everything else
(legacy string entry, absent or empty `server`) yields the literal
`"global"`.  The `none` fallbacks for a missing/non-mapping `users` key model
the (unreachable after a real check) Python exception. -/
def AppHub.get_server (s : AppHub) : Option String :=
  match s.user_name with
  | none => none
  | some uname =>
    match s.licenses with
    | none => none
    | some lic =>
      match lookup? lic "users" with
      | some (.obj users) =>
        match lookup? users uname with
        | some (.obj info) =>
          match lookup? info "server" with
          | some (.str sv) => if sv = "" then some "global" else some sv
          | _ => some "global"
        | _ => some "global"
      | _ => none

/-- The user tier of `AppHub.get` (lines 313-316): the parameter looked up
directly in the captured license record, when one was captured. -/
def AppHub.userHit (s : AppHub) (p : String) : Option JVal :=
  match s.user_data with
  | some ud => lookup? ud p
  | none => none

/-- The nested-section scan shared by the server and global tiers (lines
327-329 and 337-339): top-level values in document order, a value that is
itself a mapping is searched for the parameter, first hit wins. -/
def searchSections : Doc → String → Option JVal
  | [], _ => none
  | (_, v) :: rest, p =>
    match v with
    | .obj sec =>
      match lookup? sec p with
      | some w => some w
      | none => searchSections rest p
    | _ => searchSections rest p

/-- The in-document search used by the server tier (lines 322-329) and the
global tier (lines 333-339): a flat top-level key first, then the one-level
nested sections. -/
def searchDoc (d : Doc) (p : String) : Option JVal :=
  match lookup? d p with
  | some v => some v
  | none => searchSections d p

/-- Prefixes the fetch log of an earlier phase onto a `get` result. -/
def prependLog (lg : List String) : JVal × AppHub × List String → JVal × AppHub × List String
  | (v, s, l) => (v, s, lg ++ l)

/-- The global tier of `AppHub.get` (lines 331-343): only entered with
`fallback` set; a load failure, or no hit, yields the not-found signal
`null` (Python returns `None`). -/
def AppHub.globalTier (f : Fetch) (p : String) (fallback : Bool) (s : AppHub) :
    JVal × AppHub × List String :=
  if fallback then
    match AppHub.load_global_config f s with
    | (true, s1, lg) =>
      match s1.global_config with
      | some gd =>
        (match searchDoc gd p with
         | some v => (v, s1, lg)
         | none => (.null, s1, lg))
      | none => (.null, s1, lg)
    | (false, s1, lg) => (.null, s1, lg)
  else (.null, s, [])

/-- `AppHub.get` (lines 296-343): the cascading parameter lookup.  The
returned `JVal` is the Python return value — a found value (which may itself
be `null`) or `null` as the not-found signal; the tiers are user record,
then the server document named by `get_server` (loaded through the cache),
then — only with `fallback` — the global document.  A server tier whose
server name is the error signal `None`, whose load fails, or whose document
misses the parameter falls through to the global tier. -/
def AppHub.get (f : Fetch) (p : String) (fallback : Bool) (s : AppHub) :
    JVal × AppHub × List String :=
  match AppHub.userHit s p with
  | some v => (v, s, [])
  | none =>
    match AppHub.get_server s with
    | none => AppHub.globalTier f p fallback s
    | some sv =>
      match AppHub.load_server_config f sv s with
      | (true, s1, lg) =>
        match s1.server_config with
        | some sd =>
          (match searchDoc sd p with
           | some v => (v, s1, lg)
           | none => prependLog lg (AppHub.globalTier f p fallback s1))
        | none => prependLog lg (AppHub.globalTier f p fallback s1)
      | (false, s1, lg) => prependLog lg (AppHub.globalTier f p fallback s1)

namespace LM

/-- The user scan of `LicenseManager.check_license` (lines 200-204): unlike
`AppHub._find_user`, the raw entry value itself is compared with the probe
identity, so only a legacy string entry can ever match — a mapping entry
never equals a string and is passed over. -/
def findUserIn (hwid : String) : List (String × JVal) → Option String
  | [] => none
  | (name, v) :: rest =>
    match v with
    | .str h => if h = hwid then some name else findUserIn hwid rest
    | _ => findUserIn hwid rest

/-- `LicenseManager.check_license` (lines 176-258).  The class holds no
cache, so the fetched document (`fetchRes`, the result of
`_fetch_licenses`) and the remote current date (`currentDate`, the result of
`_get_current_date_online`, `none` when no time source answered) are plain
parameters.  Both the `expires` date and the current date are parsed at day
granularity, so the expiry comparison is date-against-date. -/
def check_license (fetchRes : Option Doc) (currentDate : Option String)
    (app_name hwid : String) : Outcome :=
  match fetchRes with
  | none => .denied .documentUnavailable
  | some lic =>
    match lookup? lic "users", lookup? lic "apps" with
    | none, _ => .denied .malformedDocument
    | some _, none => .denied .malformedDocument
    | some users, some apps =>
      match users with
      | .obj um =>
        match findUserIn hwid um with
        | none => .denied .identityNotFound
        | some uname =>
          match apps with
          | .obj am =>
            match lookup? am app_name with
            | none => .denied .applicationUnknown
            | some (.obj au) =>
              match lookup? au uname with
              | none => .denied .userNotEntitled
              | some (.obj r) =>
                if isTrueLit (lookup? r "active") then
                  .granted (getD r "level" (.str "TRY"))
                else
                  let ev := lookup? r "expires"
                  if truthyO ev = false then .denied .licenseInactive
                  else
                    match ev with
                    | some (.str es) =>
                      match currentDate with
                      | none => .denied .dateUnavailable
                      | some cd =>
                        match parseDate es with
                        | none => .denied .malformedExpiry
                        | some ed =>
                          match parseDate cd with
                          | none => .denied .malformedExpiry
                          | some cdd =>
                            if Date.before ed cdd then .denied .licenseExpired
                            else .granted (getD r "level" (.str "TRY"))
                    | _ => .error
              | some _ => .error
            | some _ => .error
          | _ => .error
      | _ => .error

end LM

/-! ### Helper lemmas -/

theorem load_licenses_cached (f : Fetch) (s : AppHub) (lic : Doc)
    (h : s.licenses = some lic) : AppHub.load_licenses f s = (.ok, s, []) := by
  unfold AppHub.load_licenses
  rw [h]

theorem load_server_config_keeps (f : Fetch) (n : String) (s : AppHub) :
    (AppHub.load_server_config f n s).2.1.user_name = s.user_name ∧
    (AppHub.load_server_config f n s).2.1.licenses = s.licenses ∧
    (AppHub.load_server_config f n s).2.1.user_data = s.user_data ∧
    (AppHub.load_server_config f n s).2.1.global_config = s.global_config := by
  unfold AppHub.load_server_config
  split
  · exact ⟨rfl, rfl, rfl, rfl⟩
  · cases h : f (n ++ ".json") <;> exact ⟨rfl, rfl, rfl, rfl⟩

theorem load_global_config_keeps (f : Fetch) (s : AppHub) :
    (AppHub.load_global_config f s).2.1.user_name = s.user_name ∧
    (AppHub.load_global_config f s).2.1.licenses = s.licenses ∧
    (AppHub.load_global_config f s).2.1.user_data = s.user_data ∧
    (AppHub.load_global_config f s).2.1.server_config = s.server_config ∧
    (AppHub.load_global_config f s).2.1.server_name = s.server_name := by
  unfold AppHub.load_global_config
  cases h : s.global_config
  · cases h2 : f "global.json" <;> exact ⟨rfl, rfl, rfl, rfl, rfl⟩
  · exact ⟨rfl, rfl, rfl, rfl, rfl⟩

theorem get_server_congr (s1 s2 : AppHub) (h1 : s1.user_name = s2.user_name)
    (h2 : s1.licenses = s2.licenses) :
    AppHub.get_server s1 = AppHub.get_server s2 := by
  unfold AppHub.get_server
  rw [h1, h2]

/-! ### C2 — `active == true` grants, independent of expiry and of any
current-date source -/

/-- C2: for every license record whose `active` field is exactly the boolean
`true`, `check_license` grants and returns the record's `level` (the string
`"TRY"` when `level` is absent), whatever the `expires` field holds (it may
be malformed or absent: `r` is unconstrained beyond `active`), and without
consulting any current-date source: in the `AppHub` variant the conclusion
is the same for every `now`, and in the `LicenseManager` variant it is the
same for every remote-date answer `currentDate`. -/
theorem c2_active_true_grants :
    (∀ (f : Fetch) (now : DateTime) (s s1 : AppHub) (lg : List String)
       (lic users apps au r : Doc) (uname : String),
       AppHub.load_licenses f s = (.ok, s1, lg) →
       s1.licenses = some lic →
       versionGate lic s1.current_version = .pass →
       lookup? lic "users" = some (.obj users) →
       findUserIn s1.hwid users = some uname →
       lookup? lic "apps" = some (.obj apps) →
       lookup? apps s1.app_name = some (.obj au) →
       lookup? au uname = some (.obj r) →
       lookup? r "active" = some (.bool true) →
       (AppHub.check_license f now s).1 = .granted (getD r "level" (.str "TRY"))) ∧
    (∀ (lic users apps au r : Doc) (currentDate : Option String)
       (a h : String) (uname : String),
       lookup? lic "users" = some (.obj users) →
       lookup? lic "apps" = some (.obj apps) →
       LM.findUserIn h users = some uname →
       lookup? apps a = some (.obj au) →
       lookup? au uname = some (.obj r) →
       lookup? r "active" = some (.bool true) →
       LM.check_license (some lic) currentDate a h =
         .granted (getD r "level" (.str "TRY"))) := by
  constructor
  · intro f now s s1 lg lic users apps au r uname
    intro hload hlic hgate husers hfind happs happ hau hact
    simp only [AppHub.check_license, AppHub.find_user, AppHub.checkApp, hload,
      hlic, hgate, husers, hfind, happs, happ, hau, hact,
      load_licenses_cached f s1 lic hlic, isTrueLit, if_true]
  · intro lic users apps au r currentDate a h uname
    intro husers happs hfind happ hau hact
    simp only [LM.check_license, husers, happs, hfind, happ, hau, hact, isTrueLit,
      if_true]

/-! ### Concrete fixtures for witnesses and counterexamples -/

/-- License record of user `Pavel` for app `joystick`: active, level `PRO`,
an already-past `expires`. -/
def rPavelW : Doc :=
  [("level", .str "PRO"), ("active", .bool true), ("expires", .str "2020-01-01")]

/-- License record of user `Evgen`: not active, expiring 2025-06-01, no
`level`. -/
def rEvgenW : Doc := [("expires", .str "2025-06-01")]

/-- License record of user `Olga`: active, no `level`, no `expires`. -/
def rOlgaW : Doc := [("active", .bool true)]

/-- `users` mapping: `Pavel` in the new form (with a server), `Evgen` and
`Olga` in the legacy string form. -/
def usersW : Doc :=
  [("Pavel", .obj [("hwid", .str "H"), ("server", .str "alure")]),
   ("Evgen", .str "H2"), ("Olga", .str "H3")]

def appUsersW : Doc :=
  [("Pavel", .obj rPavelW), ("Evgen", .obj rEvgenW), ("Olga", .obj rOlgaW)]

def appsW : Doc := [("joystick", .obj appUsersW)]

/-- A well-formed licenses document with `min_version` 5. -/
def licW : Doc :=
  [("min_version", .str "5"), ("users", .obj usersW), ("apps", .obj appsW)]

/-- A fetcher serving the licenses document, a server document `alure.json`
(flat `delay`, nested section `offsets` holding `X`) and a global document
(a different `delay`, plus `g`). -/
def fW : Fetch := fun n =>
  if n = "licenses.json" then some licW
  else if n = "alure.json" then
    some [("delay", .num 7), ("offsets", .obj [("X", .num 3)])]
  else if n = "global.json" then some [("delay", .num 99), ("g", .num 1)]
  else none

/-- An instant on 2025-06-01, slightly past midnight. -/
def nowW : DateTime := { date := { year := 2025, month := 6, day := 1 }, frac := 5 }

/-- Witness for C2: `Pavel` (active, level `PRO`, long-expired `expires`) is
granted `PRO` by `AppHub`, and legacy user `Olga` (active, no `level`) is
granted `TRY` by `LicenseManager` even with no current-date source at all. -/
theorem c2_active_true_grants_witness :
    (AppHub.check_license fW nowW (AppHub.init "joystick" "5" "H")).1 =
      .granted (.str "PRO") ∧
    LM.check_license (some licW) none "joystick" "H3" = .granted (.str "TRY") := by
  constructor
  · exact c2_active_true_grants.1 fW nowW (AppHub.init "joystick" "5" "H")
      { AppHub.init "joystick" "5" "H" with licenses := some licW }
      ["licenses.json"] licW usersW appsW appUsersW rPavelW "Pavel"
      rfl rfl rfl rfl rfl rfl rfl rfl rfl
  · exact c2_active_true_grants.2 licW usersW appsW appUsersW rOlgaW none
      "joystick" "H3" "Olga" rfl rfl rfl rfl rfl rfl

/-! ### C8 — a licenses document missing `users` or `apps` is invalid -/

/-- C8: a fetched licenses document missing the `users` key or the `apps`
key is rejected as a whole: both variants deny with the distinguishable
`malformedDocument` outcome, the `AppHub` cache slot is reset to `None`
(exactly as after a fetch failure, so a later call re-fetches), and no
unhandled exception (`Outcome.error`) escapes. -/
theorem c8_missing_keys_invalidate :
    (∀ (f : Fetch) (now : DateTime) (s : AppHub) (d : Doc),
       s.licenses = none →
       f "licenses.json" = some d →
       ((lookup? d "users").isNone || (lookup? d "apps").isNone) = true →
       (AppHub.check_license f now s).1 = .denied .malformedDocument ∧
       (AppHub.check_license f now s).2.1.licenses = none ∧
       (AppHub.check_license f now s).1 ≠ .error) ∧
    (∀ (d : Doc) (cd : Option String) (a h : String),
       lookup? d "users" = none ∨ lookup? d "apps" = none →
       LM.check_license (some d) cd a h = .denied .malformedDocument ∧
       LM.check_license (some d) cd a h ≠ .error) := by
  constructor
  · intro f now s d hnone hfetch hbad
    simp [AppHub.check_license, AppHub.load_licenses, hnone, hfetch, hbad]
  · intro d cd a h hdis
    rcases hdis with h1 | h1
    · simp [LM.check_license, h1]
    · cases h2 : lookup? d "users" <;> simp [LM.check_license, h1, h2]

/-- Witness for C8: a document holding only `users`, and one holding only
`apps`, are both denied as malformed by both variants. -/
theorem c8_missing_keys_invalidate_witness :
    ((AppHub.check_license (fun _ => some [("users", .obj [])]) nowW
        (AppHub.init "joystick" "5" "H")).1 = .denied .malformedDocument ∧
     (AppHub.check_license (fun _ => some [("users", .obj [])]) nowW
        (AppHub.init "joystick" "5" "H")).2.1.licenses = none ∧
     (AppHub.check_license (fun _ => some [("users", .obj [])]) nowW
        (AppHub.init "joystick" "5" "H")).1 ≠ .error) ∧
    (LM.check_license (some [("apps", .obj [])]) none "joystick" "H" =
        .denied .malformedDocument ∧
     LM.check_license (some [("apps", .obj [])]) none "joystick" "H" ≠ .error) := by
  constructor
  · exact c8_missing_keys_invalidate.1 (fun _ => some [("users", .obj [])]) nowW
      (AppHub.init "joystick" "5" "H") [("users", .obj [])] rfl rfl rfl
  · exact c8_missing_keys_invalidate.2 [("apps", .obj [])] none "joystick" "H"
      (Or.inl rfl)

/-! ### C5 — the version gate runs before identity and record checks -/

/-- The version gate with a present, non-`null` `min_version` value. -/
theorem versionGate_nonnull (lic : Doc) (cur : String) (mv : JVal)
    (hmv : lookup? lic "min_version" = some mv) (hnn : mv ≠ .null) :
    versionGate lic cur =
      (match parseInt? cur with
       | none => .badVersion
       | some c =>
         match pyInt? mv with
         | .ok m => if c < m then .oldVersion else .pass
         | .valueError => .badVersion
         | .typeError => .err) := by
  unfold versionGate
  rw [hmv]
  cases mv
  · exact absurd rfl hnn
  all_goals rfl

/-- C5: when the (successfully loaded) licenses document carries a non-null
`min_version`, the version gate decides first — an unparseable client
version string denies with `malformedVersion`, and a parsed client version
strictly below the minimum denies with `versionTooOld`; in both conjuncts
the rest of the document (`users`, `apps`, every license record) and the
machine identity are completely unconstrained, and the conclusion does not
depend on them. -/
theorem c5_version_gate_first :
    ∀ (f : Fetch) (now : DateTime) (s s1 : AppHub) (lg : List String)
      (lic : Doc) (mv : JVal),
      AppHub.load_licenses f s = (.ok, s1, lg) →
      s1.licenses = some lic →
      lookup? lic "min_version" = some mv →
      mv ≠ .null →
      ((parseInt? s1.current_version = none →
        (AppHub.check_license f now s).1 = .denied .malformedVersion) ∧
       (∀ c m : Int, parseInt? s1.current_version = some c →
        pyInt? mv = .ok m → c < m →
        (AppHub.check_license f now s).1 = .denied .versionTooOld)) := by
  intro f now s s1 lg lic mv hload hlic hmv hnn
  constructor
  · intro hcur
    have hg : versionGate lic s1.current_version = .badVersion := by
      rw [versionGate_nonnull lic _ mv hmv hnn, hcur]
    simp only [AppHub.check_license, hload, hlic, hg]
  · intro c m hcur hpy hlt
    have hg : versionGate lic s1.current_version = .oldVersion := by
      rw [versionGate_nonnull lic _ mv hmv hnn]
      simp [hcur, hpy, hlt]
    simp only [AppHub.check_license, hload, hlic, hg]

/-- Witness for C5: with `min_version = "5"`, client version `"x"` is
denied as malformed and client version `"4"` as too old, on a document whose
identity and app data would otherwise grant. -/
theorem c5_version_gate_first_witness :
    (AppHub.check_license fW nowW (AppHub.init "joystick" "x" "H")).1 =
      .denied .malformedVersion ∧
    (AppHub.check_license fW nowW (AppHub.init "joystick" "4" "H")).1 =
      .denied .versionTooOld := by
  constructor
  · exact (c5_version_gate_first fW nowW (AppHub.init "joystick" "x" "H")
      { AppHub.init "joystick" "x" "H" with licenses := some licW }
      ["licenses.json"] licW (.str "5") rfl rfl rfl (by simp)).1 rfl
  · exact (c5_version_gate_first fW nowW (AppHub.init "joystick" "4" "H")
      { AppHub.init "joystick" "4" "H" with licenses := some licW }
      ["licenses.json"] licW (.str "5") rfl rfl rfl (by simp)).2 4 5 rfl rfl
      (by norm_num)

/-! ### C1 — cascade order: user, then server, then global; flat beats nested -/

/-- C1: `get` consults the tiers in the fixed order user → server → global
and returns the first match.  Conjunct 1: a parameter stored directly in the
captured license record is returned unchanged, with no fetch at all and for
every fetcher — so it beats any server or global content.  Conjunct 2: when
the user tier misses, a hit in the (cache-loaded) server document is
returned for every fallback setting, with the global document's content
unconstrained — server beats global.  Conjunct 3: the in-document search
returns a flat top-level key whenever one exists, so a flat key wins over a
key inside a nested one-level section even when that section appears
earlier in iteration order.  Conjunct 4: only when the user tier misses and
the server document has no flat key and no nested hit is the global
document's search result returned. -/
theorem c1_cascade_priority :
    (∀ (f : Fetch) (p : String) (fb : Bool) (s : AppHub) (v : JVal),
       AppHub.userHit s p = some v →
       AppHub.get f p fb s = (v, s, [])) ∧
    (∀ (f : Fetch) (p : String) (fb : Bool) (s s1 : AppHub) (lg : List String)
       (sv : String) (sd : Doc) (v : JVal),
       AppHub.userHit s p = none →
       AppHub.get_server s = some sv →
       AppHub.load_server_config f sv s = (true, s1, lg) →
       s1.server_config = some sd →
       searchDoc sd p = some v →
       (AppHub.get f p fb s).1 = v) ∧
    (∀ (d : Doc) (p : String) (v : JVal),
       lookup? d p = some v → searchDoc d p = some v) ∧
    (∀ (f : Fetch) (p : String) (s s1 s2 : AppHub) (lg lg2 : List String)
       (sv : String) (sd gd : Doc) (v : JVal),
       AppHub.userHit s p = none →
       AppHub.get_server s = some sv →
       AppHub.load_server_config f sv s = (true, s1, lg) →
       s1.server_config = some sd →
       searchDoc sd p = none →
       AppHub.load_global_config f s1 = (true, s2, lg2) →
       s2.global_config = some gd →
       searchDoc gd p = some v →
       (AppHub.get f p true s).1 = v) := by
  refine ⟨?_, ?_, ?_, ?_⟩
  · intro f p fb s v h
    simp only [AppHub.get, h]
  · intro f p fb s s1 lg sv sd v h0 hgs hload hsc hsd
    simp only [AppHub.get, h0, hgs, hload, hsc, hsd]
  · intro d p v h
    unfold searchDoc
    rw [h]
  · intro f p s s1 s2 lg lg2 sv sd gd v h0 hgs hload hsc hsd hgl hgc hgd
    simp only [AppHub.get, AppHub.globalTier, prependLog, h0, hgs, hload, hsc,
      hsd, hgl, hgc, hgd, if_pos]

/-- The cached state after `fW`'s granting check for `Pavel`: licenses
loaded, identity resolved, `Pavel`'s record captured. -/
def sGrW : AppHub := (AppHub.check_license fW nowW (AppHub.init "joystick" "5" "H")).2.1

/-- The server document of `fW` (`alure.json`). -/
def sdW : Doc := [("delay", .num 7), ("offsets", .obj [("X", .num 3)])]

/-- The global document of `fW` (`global.json`). -/
def gdW : Doc := [("delay", .num 99), ("g", .num 1)]

/-- `sGrW` with the server document cached. -/
def s1W : AppHub :=
  { sGrW with server_config := some sdW, server_name := some "alure" }

/-- `s1W` with the global document cached as well. -/
def s2W : AppHub := { s1W with global_config := some gdW }

/-- Witness for C1, on the session state after `Pavel`'s granting check:
`level` comes from the user record (no fetch), `delay` from the server
document (which also holds a different global value), `X` from the nested
`offsets` section, flat `delay` wins inside the server document, and `g` —
absent from user and server tiers — comes from the global document. -/
theorem c1_cascade_priority_witness :
    AppHub.get fW "level" true sGrW = (.str "PRO", sGrW, []) ∧
    (AppHub.get fW "delay" true sGrW).1 = .num 7 ∧
    searchDoc sdW "delay" = some (.num 7) ∧
    (AppHub.get fW "g" true sGrW).1 = .num 1 := by
  refine ⟨?_, ?_, ?_, ?_⟩
  · exact c1_cascade_priority.1 fW "level" true sGrW (.str "PRO") rfl
  · exact c1_cascade_priority.2.1 fW "delay" true sGrW s1W
      ["alure.json"] "alure" sdW (.num 7) rfl rfl rfl rfl rfl
  · exact c1_cascade_priority.2.2.1 sdW "delay" (.num 7) rfl
  · exact c1_cascade_priority.2.2.2 fW "g" sGrW s1W s2W
      ["alure.json"] ["global.json"] "alure" sdW gdW (.num 1)
      rfl rfl rfl rfl rfl rfl rfl rfl

/-! ### C10 — the default server name `"global"` is not special-cased -/

/-- C10: when the user record carries no server field (legacy string form),
the derived server name is the literal `"global"`, and `get` does NOT skip
the server tier for it.  Conjunct 2: even with the global fallback disabled,
`get` fetches the document named `global.json` into the server cache slot
and returns a hit found in it.  Conjunct 3: with the fallback enabled and
the parameter absent from the document, the very same file name is fetched
a second time under its Global-tier role — the fetch log is
`["global.json", "global.json"]`. -/
theorem c10_global_server_not_skipped :
    (∀ (s : AppHub) (uname : String) (lic users : Doc) (h : String),
       s.user_name = some uname →
       s.licenses = some lic →
       lookup? lic "users" = some (.obj users) →
       lookup? users uname = some (.str h) →
       AppHub.get_server s = some "global") ∧
    (∀ (f : Fetch) (p : String) (s : AppHub) (gd : Doc) (v : JVal),
       AppHub.userHit s p = none →
       AppHub.get_server s = some "global" →
       s.server_config = none →
       f "global.json" = some gd →
       searchDoc gd p = some v →
       AppHub.get f p false s =
         (v, { s with server_config := some gd, server_name := some "global" },
          ["global.json"])) ∧
    (∀ (f : Fetch) (p : String) (s : AppHub) (gd : Doc),
       AppHub.userHit s p = none →
       AppHub.get_server s = some "global" →
       s.server_config = none →
       s.global_config = none →
       f "global.json" = some gd →
       searchDoc gd p = none →
       (AppHub.get f p true s).2.2 = ["global.json", "global.json"]) := by
  refine ⟨?_, ?_, ?_⟩
  · intro s uname lic users h hun hlic husers hu
    simp only [AppHub.get_server, hun, hlic, husers, hu]
  · intro f p s gd v h0 hgs hsc hf hsd
    have hload : AppHub.load_server_config f "global" s =
        (true, { s with server_config := some gd, server_name := some "global" },
         ["global.json"]) := by
      unfold AppHub.load_server_config
      rw [hsc]
      simp [hf]
    simp only [AppHub.get, h0, hgs, hload, hsd]
  · intro f p s gd h0 hgs hsc hgc hf hsd
    have hload : AppHub.load_server_config f "global" s =
        (true, { s with server_config := some gd, server_name := some "global" },
         ["global.json"]) := by
      unfold AppHub.load_server_config
      rw [hsc]
      simp [hf]
    have hgl : AppHub.load_global_config f
        { s with server_config := some gd, server_name := some "global" } =
        (true, { s with global_config := some gd, server_config := some gd, server_name := some "global" }, ["global.json"]) := by
      unfold AppHub.load_global_config
      simp [hgc, hf]
    simp only [AppHub.get, AppHub.globalTier, prependLog, h0, hgs, hload, hsd,
      hgl, if_pos]
    rfl

/-- The cached state after the (denied: expired) check for legacy user
`Evgen`: identity resolved, record captured, no per-user server. -/
def sEvW : AppHub := (AppHub.check_license fW nowW (AppHub.init "joystick" "5" "H2")).2.1

/-- Witness for C10: for `Evgen` (legacy entry, no server field) the server
name is `"global"`; `get` with the fallback disabled still fetches
`global.json` into the server cache slot and returns its `delay`; and a
missing parameter with the fallback enabled fetches `global.json` twice. -/
theorem c10_global_server_not_skipped_witness :
    AppHub.get_server sEvW = some "global" ∧
    AppHub.get fW "delay" false sEvW =
      (.num 99, { sEvW with server_config := some gdW, server_name := some "global" },
       ["global.json"]) ∧
    (AppHub.get fW "zz" true sEvW).2.2 = ["global.json", "global.json"] := by
  refine ⟨?_, ?_, ?_⟩
  · exact c10_global_server_not_skipped.1 sEvW "Evgen" licW usersW "H2"
      rfl rfl rfl rfl
  · exact c10_global_server_not_skipped.2.1 fW "delay" sEvW gdW (.num 99)
      rfl rfl rfl rfl rfl
  · exact c10_global_server_not_skipped.2.2 fW "zz" sEvW gdW
      rfl rfl rfl rfl rfl rfl

/-! ### C6 — `allow_global_fallback=false` and the Global document -/

/-- With the fallback disabled the global tier is inert: no fetch, no state
change, not-found signal. -/
theorem globalTier_false (f : Fetch) (p : String) (s : AppHub) :
    AppHub.globalTier f p false s = (.null, s, []) := rfl

/-- C6 (amended): with the fallback disabled, `get` never performs the
Global-tier lookup.  Conjunct 1 (two-run): provided the derived server name
does not collide with the literal `"global"`, the whole result (value, state
and fetch log) is identical under any two fetchers that agree everywhere
except on `global.json` — i.e. for any two contents of the Global document.
Conjunct 2: when the user tier misses and the loaded server document has no
hit, the result is the not-found signal `null`.  Conjunct 3: the same when
no server name can be derived at all.  (The proviso in conjunct 1 is forced
by the `"global"` collision of C10 — see `c6_no_global_fallback_counterexample`.) -/
theorem c6_no_global_fallback :
    (∀ (s : AppHub) (p : String) (f1 f2 : Fetch),
       (∀ n, n ≠ "global.json" → f1 n = f2 n) →
       (∀ sv, AppHub.get_server s = some sv → sv ++ ".json" ≠ "global.json") →
       AppHub.get f1 p false s = AppHub.get f2 p false s) ∧
    (∀ (f : Fetch) (p : String) (s s1 : AppHub) (lg : List String)
       (sv : String) (sd : Doc),
       AppHub.userHit s p = none →
       AppHub.get_server s = some sv →
       AppHub.load_server_config f sv s = (true, s1, lg) →
       s1.server_config = some sd →
       searchDoc sd p = none →
       AppHub.get f p false s = (.null, s1, lg)) ∧
    (∀ (f : Fetch) (p : String) (s : AppHub),
       AppHub.userHit s p = none →
       AppHub.get_server s = none →
       AppHub.get f p false s = (.null, s, [])) := by
  refine ⟨?_, ?_, ?_⟩
  · intro s p f1 f2 hag hsv
    unfold AppHub.get
    cases h0 : AppHub.userHit s p with
    | some v => rfl
    | none =>
      cases hg : AppHub.get_server s with
      | none => rfl
      | some sv =>
        have hne : f1 (sv ++ ".json") = f2 (sv ++ ".json") := hag _ (hsv sv hg)
        unfold AppHub.load_server_config
        by_cases hc : s.server_config.isSome = true ∧ s.server_name = some sv
        · simp only [if_pos hc, globalTier_false]
        · simp only [if_neg hc, hne, globalTier_false]
  · intro f p s s1 lg sv sd h0 hgs hload hsc hsd
    simp only [AppHub.get, AppHub.globalTier, prependLog, h0, hgs, hload, hsc,
      hsd, Bool.false_eq_true, if_false, List.append_nil]
  · intro f p s h0 hgs
    simp only [AppHub.get, h0, hgs]
    rfl

/-- Witness for `c6_no_global_fallback`, on the state after `Pavel`'s
granting check (server `alure`): the result ignores the Global document
(here: a fetcher with no global document at all), a server-tier miss with
the fallback disabled returns `null`, and a fresh session with no resolved
user returns `null` without any fetch. -/
theorem c6_no_global_fallback_witness :
    AppHub.get fW "zz" false sGrW =
      AppHub.get (fun n => if n = "global.json" then none else fW n) "zz" false sGrW ∧
    AppHub.get fW "zz" false sGrW = (.null, s1W, ["alure.json"]) ∧
    AppHub.get fW "zz" false (AppHub.init "joystick" "5" "H") =
      (.null, AppHub.init "joystick" "5" "H", []) := by
  refine ⟨?_, ?_, ?_⟩
  · exact c6_no_global_fallback.1 sGrW "zz" fW
      (fun n => if n = "global.json" then none else fW n)
      (by intro n hn; simp [hn])
      (by
        intro sv hsv
        rw [show AppHub.get_server sGrW = some "alure" from rfl] at hsv
        injection hsv with h
        subst h
        decide)
  · exact c6_no_global_fallback.2.1 fW "zz" sGrW s1W ["alure.json"] "alure" sdW
      rfl rfl rfl rfl rfl
  · exact c6_no_global_fallback.2.2 fW "zz" (AppHub.init "joystick" "5" "H")
      rfl rfl

/-- A fetcher identical to `fW` except for the content of the Global
document `global.json` (which here lacks the key `g`). -/
def fBC6 : Fetch := fun n =>
  if n = "licenses.json" then some licW
  else if n = "alure.json" then some sdW
  else if n = "global.json" then some [("delay", .num 99)]
  else none

/-- Counterexample to C6 as stated: for legacy user `Evgen` the derived
server name is `"global"`, so even with `allow_global_fallback=false` the
parameter `g` is read from the document named `global.json` — `fW` and
`fBC6` differ only in that document's content, yet `get` returns `1` under
the first and the not-found signal under the second.  The returned value is
therefore not independent of the Global document's content. -/
theorem c6_no_global_fallback_counterexample :
    (AppHub.get fW "g" false sEvW).1 = .num 1 ∧
    (AppHub.get fBC6 "g" false sEvW).1 = .null ∧
    (AppHub.get fW "g" false sEvW).1 ≠ (AppHub.get fBC6 "g" false sEvW).1 := by
  exact ⟨rfl, rfl, by decide⟩

/-! ### C7 — at most one fetch per document name; eviction; failures not cached -/

/-- C7: caching behaviour of the document slots.  Conjunct 1: two sequential
`get` calls that both reach the same (initially uncached) server document
cause exactly one fetch of that document's name across both calls.
Conjunct 2: requesting a different server name evicts the previous cached
server document and triggers a fresh fetch of the new name.  Conjunct 3: a
failed server-document fetch leaves the slot empty, and the next access
fetches the same name again.  Conjunct 4: a failed licenses fetch leaves the
slot empty, and every later load attempt fetches `licenses.json` again. -/
theorem c7_fetch_once_per_name :
    (∀ (f : Fetch) (p1 p2 : String) (s : AppHub) (sv : String) (sd : Doc),
       AppHub.userHit s p1 = none →
       AppHub.userHit s p2 = none →
       AppHub.get_server s = some sv →
       s.server_config = none →
       f (sv ++ ".json") = some sd →
       ((AppHub.get f p1 false s).2.2 ++
        (AppHub.get f p2 false (AppHub.get f p1 false s).2.1).2.2).count
         (sv ++ ".json") = 1) ∧
    (∀ (f : Fetch) (a b : String) (s : AppHub) (da db : Doc),
       s.server_name = some a →
       s.server_config = some da →
       b ≠ a →
       f (b ++ ".json") = some db →
       AppHub.load_server_config f b s =
         (true, { s with server_config := some db, server_name := some b },
          [b ++ ".json"])) ∧
    (∀ (f f2 : Fetch) (sv : String) (s : AppHub) (db : Doc),
       s.server_config = none →
       f (sv ++ ".json") = none →
       f2 (sv ++ ".json") = some db →
       AppHub.load_server_config f sv s =
         (false, { s with server_config := none, server_name := some sv },
          [sv ++ ".json"]) ∧
       AppHub.load_server_config f2 sv
           { s with server_config := none, server_name := some sv } =
         (true, { s with server_config := some db, server_name := some sv },
          [sv ++ ".json"])) ∧
    (∀ (f : Fetch) (s : AppHub),
       s.licenses = none →
       f "licenses.json" = none →
       AppHub.load_licenses f s = (.fetchFailed, s, ["licenses.json"]) ∧
       ∀ f2 : Fetch, (AppHub.load_licenses f2 s).2.2 = ["licenses.json"]) := by
  refine ⟨?_, ?_, ?_, ?_⟩
  · intro f p1 p2 s sv sd h01 h02 hgs hsc hf
    have hload : AppHub.load_server_config f sv s =
        (true, { s with server_config := some sd, server_name := some sv },
         [sv ++ ".json"]) := by
      unfold AppHub.load_server_config
      rw [hsc]
      simp [hf]
    have h1 : (AppHub.get f p1 false s).2.1 =
        { s with server_config := some sd, server_name := some sv } ∧
        (AppHub.get f p1 false s).2.2 = [sv ++ ".json"] := by
      cases hs : searchDoc sd p1 with
      | some v =>
          simp only [AppHub.get, h01, hgs, hload, hs]
          constructor <;> trivial
      | none =>
          simp only [AppHub.get, h01, hgs, hload, hs, globalTier_false,
            prependLog]
          constructor <;> trivial
    have hload2 : AppHub.load_server_config f sv
        { s with server_config := some sd, server_name := some sv } =
        (true, { s with server_config := some sd, server_name := some sv },
         []) := by
      unfold AppHub.load_server_config
      simp
    have h02b : AppHub.userHit
        { s with server_config := some sd, server_name := some sv } p2 = none := h02
    have hgsb : AppHub.get_server
        { s with server_config := some sd, server_name := some sv } = some sv := hgs
    have h2 : (AppHub.get f p2 false
        { s with server_config := some sd, server_name := some sv }).2.2 = [] := by
      cases hs : searchDoc sd p2 with
      | some v => simp only [AppHub.get, h02b, hgsb, hload2, hs]
      | none =>
          simp only [AppHub.get, h02b, hgsb, hload2, hs, globalTier_false,
            prependLog]
          rfl
    rw [h1.2, h1.1, h2]
    simp
  · intro f a b s da db hname hconf hba hf
    unfold AppHub.load_server_config
    rw [if_neg, hf]
    intro hc
    rw [hname] at hc
    exact hba (Option.some.inj hc.2).symm
  · intro f f2 sv s db hsc hf hf2
    constructor
    · unfold AppHub.load_server_config
      rw [hsc]
      simp [hf]
    · unfold AppHub.load_server_config
      simp [hf2]
  · intro f s hnone hf
    constructor
    · unfold AppHub.load_licenses
      rw [hnone, hf]
    · intro f2
      unfold AppHub.load_licenses
      rw [hnone]
      cases hd : f2 "licenses.json" with
      | none => rfl
      | some d =>
          by_cases hb : ((lookup? d "users").isNone || (lookup? d "apps").isNone) = true
          · simp [hb]
          · simp [hb]

/-- Witness for C7, in `Pavel`'s session (server `alure`): getting `X` then
`delay` fetches `alure.json` exactly once across both calls; asking for
server `global` afterwards evicts the cached `alure` document and fetches
`global.json`; a dead fetcher leaves the server slot and the licenses slot
empty and the very next access fetches the same file name again. -/
theorem c7_fetch_once_per_name_witness :
    ((AppHub.get fW "X" false sGrW).2.2 ++
     (AppHub.get fW "delay" false (AppHub.get fW "X" false sGrW).2.1).2.2).count
      "alure.json" = 1 ∧
    AppHub.load_server_config fW "global" s1W =
      (true, { s1W with server_config := some gdW, server_name := some "global" },
       ["global.json"]) ∧
    (AppHub.load_server_config (fun _ => none) "alure" sGrW =
      (false, { sGrW with server_config := none, server_name := some "alure" },
       ["alure.json"]) ∧
     AppHub.load_server_config fW "alure"
         { sGrW with server_config := none, server_name := some "alure" } =
      (true, { sGrW with server_config := some sdW, server_name := some "alure" },
       ["alure.json"])) ∧
    (AppHub.load_licenses (fun _ => none) (AppHub.init "joystick" "5" "H") =
      (.fetchFailed, AppHub.init "joystick" "5" "H", ["licenses.json"]) ∧
     (AppHub.load_licenses fW (AppHub.init "joystick" "5" "H")).2.2 =
       ["licenses.json"]) := by
  refine ⟨?_, ?_, ?_, ?_, ?_⟩
  · exact c7_fetch_once_per_name.1 fW "X" "delay" sGrW "alure" sdW
      rfl rfl rfl rfl rfl
  · exact c7_fetch_once_per_name.2.1 fW "alure" "global" s1W sdW gdW
      rfl rfl (by decide) rfl
  · constructor
    · exact (c7_fetch_once_per_name.2.2.1 (fun _ => none) fW "alure" sGrW sdW
        rfl rfl rfl).1
    · exact (c7_fetch_once_per_name.2.2.1 (fun _ => none) fW "alure" sGrW sdW
        rfl rfl rfl).2
  · exact (c7_fetch_once_per_name.2.2.2 (fun _ => none)
      (AppHub.init "joystick" "5" "H") rfl rfl).1
  · exact (c7_fetch_once_per_name.2.2.2 (fun _ => none)
      (AppHub.init "joystick" "5" "H") rfl rfl).2 fW

/-! ### C9 — when `get_server` is valid, and what it returns -/

/-- `checkApp` never touches the `_user_name` field. -/
theorem checkApp_keeps_user_name (now : DateTime) (lic : Doc) (un : String)
    (s : AppHub) : (AppHub.checkApp now lic un s).2.user_name = s.user_name := by
  unfold AppHub.checkApp
  dsimp only
  repeat' split
  all_goals rfl

/-- C9 (amended): `get_server` returns the error signal exactly until an
identity has been resolved, not until a *granting* check.  Conjunct 1: on a
fresh instance it returns the error signal `None`.  Conjunct 2: once the
identity is resolved, a mapping-form user entry with a non-empty `server`
string yields that server name.  Conjunct 3: a legacy (string) entry, an
absent `server` field, or an empty `server` string all yield the literal
`"global"`.  Conjunct 4: a granting `check_license` always leaves the
identity resolved, so after a grant `get_server` is governed by conjuncts
2-3.  (The check that sets the identity need not grant — see
`c9_server_after_grant_counterexample`.) -/
theorem c9_server_after_grant :
    (∀ a v h : String, AppHub.get_server (AppHub.init a v h) = none) ∧
    (∀ (s : AppHub) (u : String) (lic users info : Doc) (sv : String),
       s.user_name = some u →
       s.licenses = some lic →
       lookup? lic "users" = some (.obj users) →
       lookup? users u = some (.obj info) →
       lookup? info "server" = some (.str sv) →
       sv ≠ "" →
       AppHub.get_server s = some sv) ∧
    (∀ (s : AppHub) (u : String) (lic users : Doc),
       s.user_name = some u →
       s.licenses = some lic →
       lookup? lic "users" = some (.obj users) →
       ((∀ h : String, lookup? users u = some (.str h) →
           AppHub.get_server s = some "global") ∧
        (∀ info : Doc, lookup? users u = some (.obj info) →
           lookup? info "server" = none →
           AppHub.get_server s = some "global") ∧
        (∀ info : Doc, lookup? users u = some (.obj info) →
           lookup? info "server" = some (.str "") →
           AppHub.get_server s = some "global"))) ∧
    (∀ (f : Fetch) (now : DateTime) (s : AppHub) (lvl : JVal),
       (AppHub.check_license f now s).1 = .granted lvl →
       ∃ u : String, (AppHub.check_license f now s).2.1.user_name = some u) := by
  refine ⟨?_, ?_, ?_, ?_⟩
  · intro a v h
    rfl
  · intro s u lic users info sv hun hlic husers hu hsv hne
    simp only [AppHub.get_server, hun, hlic, husers, hu, hsv, if_neg hne]
  · intro s u lic users hun hlic husers
    refine ⟨?_, ?_, ?_⟩
    · intro h hu
      simp only [AppHub.get_server, hun, hlic, husers, hu]
    · intro info hu hsv
      simp only [AppHub.get_server, hun, hlic, husers, hu, hsv]
    · intro info hu hsv
      simp only [AppHub.get_server, hun, hlic, husers, hu, hsv]
      simp
  · intro f now s lvl h
    unfold AppHub.check_license at h ⊢
    rcases hL : AppHub.load_licenses f s with ⟨r, s1, lg⟩
    rw [hL] at h
    cases r with
    | fetchFailed => simp at h
    | badStructure => simp at h
    | ok =>
      dsimp only at h ⊢
      cases hlic : s1.licenses with
      | none => rw [hlic] at h; simp at h
      | some lic =>
        rw [hlic] at h
        dsimp only at h ⊢
        cases hg : versionGate lic s1.current_version with
        | badVersion => rw [hg] at h; simp at h
        | oldVersion => rw [hg] at h; simp at h
        | err => rw [hg] at h; simp at h
        | pass =>
          rw [hg] at h
          dsimp only at h ⊢
          rcases hF : AppHub.find_user f s1 with ⟨fr, s2, lg2⟩
          rw [hF] at h
          cases fr with
          | err => simp at h
          | notFound => simp at h
          | found uname =>
            refine ⟨uname, ?_⟩
            dsimp only
            rw [checkApp_keeps_user_name]

/-- Witness for C9 (amended): a fresh instance gives the error signal;
after `Pavel`'s granting check the per-user server `alure` is returned;
after legacy `Evgen`'s check the literal `"global"` is returned; and
`Pavel`'s granting check indeed leaves the identity resolved. -/
theorem c9_server_after_grant_witness :
    AppHub.get_server (AppHub.init "joystick" "5" "H") = none ∧
    AppHub.get_server sGrW = some "alure" ∧
    AppHub.get_server sEvW = some "global" ∧
    (∃ u, (AppHub.check_license fW nowW
       (AppHub.init "joystick" "5" "H")).2.1.user_name = some u) := by
  refine ⟨?_, ?_, ?_, ?_⟩
  · exact c9_server_after_grant.1 "joystick" "5" "H"
  · exact c9_server_after_grant.2.1 sGrW "Pavel" licW usersW
      [("hwid", .str "H"), ("server", .str "alure")] "alure"
      rfl rfl rfl rfl rfl (by decide)
  · exact (c9_server_after_grant.2.2.1 sEvW "Evgen" licW usersW
      rfl rfl rfl).1 "H2" rfl
  · exact c9_server_after_grant.2.2.2 fW nowW (AppHub.init "joystick" "5" "H")
      (.str "PRO") rfl

/-- A licenses document in which `Pavel` is registered but the app
`joystick` is not listed at all. -/
def licC9 : Doc := [("users", .obj [("Pavel", .str "H")]), ("apps", .obj [])]

def fC9 : Fetch := fun n => if n = "licenses.json" then some licC9 else none

/-- Counterexample to C9 as stated: this session has had NO granting check —
its only `check_license` call denied with `applicationUnknown` — yet
`get_server` afterwards does not return the error signal but the server
name `"global"`, because `_user_name` is assigned as soon as the identity
resolves, before the app check.  "Error signal until a granting check" is
therefore false; the boundary is identity resolution. -/
theorem c9_server_after_grant_counterexample :
    (AppHub.check_license fC9 nowW (AppHub.init "joystick" "5" "H")).1 =
      .denied .applicationUnknown ∧
    AppHub.get_server
        (AppHub.check_license fC9 nowW (AppHub.init "joystick" "5" "H")).2.1 =
      some "global" ∧
    AppHub.get_server
        (AppHub.check_license fC9 nowW (AppHub.init "joystick" "5" "H")).2.1 ≠
      none :=
  ⟨rfl, rfl, by decide⟩

/-! ### C3 — identity lookup: document order, legacy and new entry forms -/

/-- C3 (amended): identity lookup scans `users` in document order and
resolves to the first matching entry, but only `AppHub._find_user` accepts
both entry forms.  Conjuncts 1-2: in `AppHub`, a legacy entry (raw string)
and a new-form entry (mapping with `hwid`) at the head both resolve to that
entry's user-name, for every tail — so the first match wins.  Conjunct 3:
when no entry matches, `AppHub.check_license` denies with
`identityNotFound`.  Conjunct 4: `LicenseManager`'s scan also resolves a
legacy entry.  Conjunct 5: but it compares the raw entry value with the
identity string, so a mapping entry is skipped outright.  Conjunct 6: with
no matching entry `LicenseManager` denies with `identityNotFound`. -/
theorem c3_identity_lookup :
    (∀ (n h : String) (rest : List (String × JVal)),
       findUserIn h ((n, .str h) :: rest) = some n) ∧
    (∀ (n h : String) (r : Doc) (rest : List (String × JVal)),
       lookup? r "hwid" = some (.str h) →
       findUserIn h ((n, .obj r) :: rest) = some n) ∧
    (∀ (f : Fetch) (now : DateTime) (s s1 : AppHub) (lg : List String)
       (lic users : Doc),
       AppHub.load_licenses f s = (.ok, s1, lg) →
       s1.licenses = some lic →
       versionGate lic s1.current_version = .pass →
       lookup? lic "users" = some (.obj users) →
       findUserIn s1.hwid users = none →
       (AppHub.check_license f now s).1 = .denied .identityNotFound) ∧
    (∀ (n h : String) (rest : List (String × JVal)),
       LM.findUserIn h ((n, .str h) :: rest) = some n) ∧
    (∀ (n h : String) (r : Doc) (rest : List (String × JVal)),
       LM.findUserIn h ((n, .obj r) :: rest) = LM.findUserIn h rest) ∧
    (∀ (lic users : Doc) (apps : JVal) (cd : Option String) (a h : String),
       lookup? lic "users" = some (.obj users) →
       lookup? lic "apps" = some apps →
       LM.findUserIn h users = none →
       LM.check_license (some lic) cd a h = .denied .identityNotFound) := by
  refine ⟨?_, ?_, ?_, ?_, ?_, ?_⟩
  · intro n h rest
    simp [findUserIn]
  · intro n h r rest hr
    simp [findUserIn, hr]
  · intro f now s s1 lg lic users hload hlic hgate husers hfind
    simp only [AppHub.check_license, AppHub.find_user, hload, hlic, hgate,
      husers, hfind, load_licenses_cached f s1 lic hlic]
  · intro n h rest
    simp [LM.findUserIn]
  · intro n h r rest
    simp [LM.findUserIn]
  · intro lic users apps cd a h husers happs hfind
    simp only [LM.check_license, husers, happs, hfind]

/-- A licenses document whose only registration of `Pavel` is in the new
mapping form (`hwid` field), with an active `joystick` license. -/
def licC3 : Doc :=
  [("users", .obj [("Pavel", .obj [("hwid", .str "H")])]),
   ("apps", .obj [("joystick", .obj [("Pavel", .obj [("active", .bool true)])])])]

def fC3 : Fetch := fun n => if n = "licenses.json" then some licC3 else none

/-- Witness for `c3_identity_lookup`: head matches of both forms in
`AppHub`; a missing identity denied by `AppHub` (fetcher `fC3`, probe
`"NOPE"`); the legacy head match in `LicenseManager`; the mapping entry
skipped by `LicenseManager`; and the resulting `identityNotFound`. -/
theorem c3_identity_lookup_witness :
    findUserIn "H2" [("Evgen", .str "H2")] = some "Evgen" ∧
    findUserIn "H" [("Pavel", .obj [("hwid", .str "H")])] = some "Pavel" ∧
    (AppHub.check_license fC3 nowW (AppHub.init "joystick" "5" "NOPE")).1 =
      .denied .identityNotFound ∧
    LM.findUserIn "H2" [("Evgen", .str "H2")] = some "Evgen" ∧
    LM.findUserIn "H" [("Pavel", .obj [("hwid", .str "H")])] =
      LM.findUserIn "H" [] ∧
    LM.check_license (some licC3) none "joystick" "NOPE" =
      .denied .identityNotFound := by
  refine ⟨?_, ?_, ?_, ?_, ?_, ?_⟩
  · exact c3_identity_lookup.1 "Evgen" "H2" []
  · exact c3_identity_lookup.2.1 "Pavel" "H" [("hwid", .str "H")] [] rfl
  · exact c3_identity_lookup.2.2.1 fC3 nowW (AppHub.init "joystick" "5" "NOPE")
      { AppHub.init "joystick" "5" "NOPE" with licenses := some licC3 }
      ["licenses.json"] licC3 [("Pavel", .obj [("hwid", .str "H")])]
      rfl rfl rfl rfl rfl
  · exact c3_identity_lookup.2.2.2.1 "Evgen" "H2" []
  · exact c3_identity_lookup.2.2.2.2.1 "Pavel" "H" [("hwid", .str "H")] []
  · exact c3_identity_lookup.2.2.2.2.2 licC3
      [("Pavel", .obj [("hwid", .str "H")])]
      (.obj [("joystick", .obj [("Pavel", .obj [("active", .bool true)])])])
      none "joystick" "NOPE" rfl rfl rfl

/-- Counterexample to C3 as stated: the same document and machine identity
resolve (and grant) through `AppHub`, but `LicenseManager.check_license`
reports `identityNotFound` — a new-form (mapping) entry never equals the
identity string in its raw-value comparison, so the two forms do NOT both
resolve in the `license.py` variant. -/
theorem c3_identity_lookup_counterexample :
    (AppHub.check_license fC3 nowW (AppHub.init "joystick" "5" "H")).1 =
      .granted (.str "TRY") ∧
    LM.check_license (some licC3) none "joystick" "H" =
      .denied .identityNotFound :=
  ⟨rfl, rfl⟩

/-! ### C4 — expiry evaluation for records that are not active -/

/-- C4 (amended): for a record whose `active` is not exactly `true` and
whose `expires` parses as a date, the two variants compare differently.
`LicenseManager` (conjuncts 1-2) parses the remote current date at day
granularity and denies with `licenseExpired` exactly when the current date
is strictly later than `expires` — equality or a future `expires` grants
with `level` (default `"TRY"`).  `AppHub` (conjuncts 3-4) compares
`datetime.now()` — a full instant — against *midnight* of `expires`, and
denies exactly when that instant lies after midnight of the expiry date: a
strictly later current date always denies and a strictly earlier one always
grants, but on the day `expires` itself the check already denies at any
time past midnight (`frac > 0`), granting only at the exact midnight
instant. -/
theorem c4_expiry_comparison :
    (∀ (lic users apps au r : Doc) (a h uname cd es : String) (ed cdd : Date),
       lookup? lic "users" = some (.obj users) →
       lookup? lic "apps" = some (.obj apps) →
       LM.findUserIn h users = some uname →
       lookup? apps a = some (.obj au) →
       lookup? au uname = some (.obj r) →
       isTrueLit (lookup? r "active") = false →
       lookup? r "expires" = some (.str es) →
       es ≠ "" →
       parseDate es = some ed →
       parseDate cd = some cdd →
       ((Date.before ed cdd = true →
          LM.check_license (some lic) (some cd) a h = .denied .licenseExpired) ∧
        (Date.before ed cdd = false →
          LM.check_license (some lic) (some cd) a h =
            .granted (getD r "level" (.str "TRY"))))) ∧
    (∀ (f : Fetch) (now : DateTime) (s s1 : AppHub) (lg : List String)
       (lic users apps au r : Doc) (uname es : String) (ed : Date),
       AppHub.load_licenses f s = (.ok, s1, lg) →
       s1.licenses = some lic →
       versionGate lic s1.current_version = .pass →
       lookup? lic "users" = some (.obj users) →
       findUserIn s1.hwid users = some uname →
       lookup? lic "apps" = some (.obj apps) →
       lookup? apps s1.app_name = some (.obj au) →
       lookup? au uname = some (.obj r) →
       isTrueLit (lookup? r "active") = false →
       lookup? r "expires" = some (.str es) →
       es ≠ "" →
       parseDate es = some ed →
       ((DateTime.before { date := ed, frac := 0 } now = true →
          (AppHub.check_license f now s).1 = .denied .licenseExpired) ∧
        (DateTime.before { date := ed, frac := 0 } now = false →
          (AppHub.check_license f now s).1 =
            .granted (getD r "level" (.str "TRY"))))) := by
  constructor
  · intro lic users apps au r a h uname cd es ed cdd
    intro husers happs hfind happ hau hact hexp hes hed hcd
    have htr : truthyO (some (.str es)) = true := by
      simp [truthyO, JVal.truthy, hes]
    constructor
    · intro hbf
      simp only [LM.check_license, husers, happs, hfind, happ, hau, hact,
        hexp, hed, hcd, hbf, Bool.false_eq_true, if_false, if_true]
      simp [htr]
    · intro hbf
      simp only [LM.check_license, husers, happs, hfind, happ, hau, hact,
        hexp, hed, hcd, hbf, Bool.false_eq_true, if_false, if_true]
      simp [htr]
  · intro f now s s1 lg lic users apps au r uname es ed
    intro hload hlic hgate husers hfind happs happ hau hact hexp hes hed
    have htr : truthyO (some (.str es)) = true := by
      simp [truthyO, JVal.truthy, hes]
    constructor
    · intro hbf
      simp only [AppHub.check_license, AppHub.find_user, AppHub.checkApp,
        hload, hlic, hgate, husers, hfind, happs, happ, hau, hact, hexp,
        hed, hbf, load_licenses_cached f s1 lic hlic, Bool.false_eq_true,
        if_false, if_true]
      simp [htr]
    · intro hbf
      simp only [AppHub.check_license, AppHub.find_user, AppHub.checkApp,
        hload, hlic, hgate, husers, hfind, happs, happ, hau, hact, hexp,
        hed, hbf, load_licenses_cached f s1 lic hlic, Bool.false_eq_true,
        if_false, if_true]
      simp [htr]

/-- Witness for `c4_expiry_comparison`, on `Evgen`'s record (not active,
`expires = "2025-06-01"`, no `level`): `LicenseManager` denies on
2025-06-02 and grants on the equal date 2025-06-01; `AppHub` denies at the
instant `nowW` (2025-06-01, past midnight) and grants a day earlier. -/
theorem c4_expiry_comparison_witness :
    LM.check_license (some licW) (some "2025-06-02") "joystick" "H2" =
      .denied .licenseExpired ∧
    LM.check_license (some licW) (some "2025-06-01") "joystick" "H2" =
      .granted (.str "TRY") ∧
    (AppHub.check_license fW nowW (AppHub.init "joystick" "5" "H2")).1 =
      .denied .licenseExpired ∧
    (AppHub.check_license fW
        { date := { year := 2025, month := 5, day := 31 }, frac := 5 }
        (AppHub.init "joystick" "5" "H2")).1 = .granted (.str "TRY") := by
  refine ⟨?_, ?_, ?_, ?_⟩
  · exact (c4_expiry_comparison.1 licW usersW appsW appUsersW rEvgenW
      "joystick" "H2" "Evgen" "2025-06-02" "2025-06-01"
      { year := 2025, month := 6, day := 1 } { year := 2025, month := 6, day := 2 }
      rfl rfl rfl rfl rfl rfl rfl (by decide) rfl rfl).1 rfl
  · exact (c4_expiry_comparison.1 licW usersW appsW appUsersW rEvgenW
      "joystick" "H2" "Evgen" "2025-06-01" "2025-06-01"
      { year := 2025, month := 6, day := 1 } { year := 2025, month := 6, day := 1 }
      rfl rfl rfl rfl rfl rfl rfl (by decide) rfl rfl).2 rfl
  · exact (c4_expiry_comparison.2 fW nowW (AppHub.init "joystick" "5" "H2")
      { AppHub.init "joystick" "5" "H2" with licenses := some licW }
      ["licenses.json"] licW usersW appsW appUsersW rEvgenW "Evgen"
      "2025-06-01" { year := 2025, month := 6, day := 1 }
      rfl rfl rfl rfl rfl rfl rfl rfl rfl rfl (by decide) rfl).1 rfl
  · exact (c4_expiry_comparison.2 fW
      { date := { year := 2025, month := 5, day := 31 }, frac := 5 }
      (AppHub.init "joystick" "5" "H2")
      { AppHub.init "joystick" "5" "H2" with licenses := some licW }
      ["licenses.json"] licW usersW appsW appUsersW rEvgenW "Evgen"
      "2025-06-01" { year := 2025, month := 6, day := 1 }
      rfl rfl rfl rfl rfl rfl rfl rfl rfl rfl (by decide) rfl).2 rfl

/-- Counterexample to C4 as stated: `Evgen`'s license expires 2025-06-01 and
the current instant `nowW` lies ON that very date (current date EQUALS
`expires`), with a time-of-day slightly past midnight — the claim requires a
grant on the equal date, but `AppHub.check_license` denies with
`licenseExpired`, because `datetime.now()` is compared against midnight of
the expiry date. -/
theorem c4_expiry_comparison_counterexample :
    (AppHub.check_license fW nowW (AppHub.init "joystick" "5" "H2")).1 =
      .denied .licenseExpired ∧
    nowW.date = { year := 2025, month := 6, day := 1 } ∧
    parseDate "2025-06-01" = some { year := 2025, month := 6, day := 1 } ∧
    (AppHub.check_license fW nowW (AppHub.init "joystick" "5" "H2")).1 ≠
      .granted (.str "TRY") :=
  ⟨rfl, rfl, rfl, by decide⟩
